import Mathlib

/-!
Shallow embedding of the two Python source files of the repository:

* `src/hoya-agent/src/main/python/agent/AgentConfig.py` — a process-wide
  INI-style configuration store (Python 2 `ConfigParser.RawConfigParser`)
  plus the `AgentConfig` accessor class.
* `src/app-packages/accumulo-v1_5/package/scripts/accumulo_configuration.py`
  — `setup_conf_dir` and its helpers, which emit a sequence of
  directory/file materialization calls into the `resource_management`
  framework.

Conventions of the embedding:

* The configuration store is a list of sections, each a list of
  `(key, value)` pairs in insertion order, mirroring the parser's ordered
  dictionaries.  `RawConfigParser.optionxform` (Python's `str.lower`,
  which lowercases only the ASCII letters A–Z) is modelled by `pyLower`
  and applied to option names on every store and lookup, as in the
  source.  The `[DEFAULT]` pseudo-section and the parser-internal
  `__name__` bookkeeping key of Python 2's `ConfigParser` are not
  modelled: the embedded default configuration has no `[DEFAULT]`
  section and the spec's override files use plain sections only.
* A parsed override file is modelled as the stream of
  `(section, option, value)` triples in file order, which is how
  `ConfigParser._read` feeds the store; `ConfigParser.read` silently
  skips unreadable files, modelled by an `Option`-valued file system.
* `setup_conf_dir` is modelled as a function from the role name and the
  `params` module to the list of framework calls it makes, in program
  order; Python `KeyError`s from dictionary subscripting become
  `Except.error`.  A small create-or-replace semantics (`applyTrace`)
  interprets such a trace as a final file-system state.
-/

/-- Python 2 `str.lower` (= `RawConfigParser.optionxform`): lowercase the
ASCII letters, leave every other character unchanged. -/
def pyLower (s : String) : String :=
  ⟨s.data.map Char.toLower⟩

/-- One section of the configuration store: ordered `(option, value)`
pairs, option names already in `optionxform`-normal (lowercased) form. -/
abbrev IniSection := List (String × String)

/-- The process-wide configuration store: ordered `(section name, section)`
pairs, as in `RawConfigParser._sections`. -/
abbrev ConfigState := List (String × IniSection)

/-- First-match lookup in a section (the parser's dict lookup; keys are
unique in a parsed store, so first match is the dict entry). -/
def lookupOpt : IniSection → String → Option String
  | [], _ => none
  | (k, v) :: rest, key => if k = key then some v else lookupOpt rest key

/-- Lookup of a section by (case-sensitive) name, as in
`self._sections[section]`. -/
def getSection : ConfigState → String → Option IniSection
  | [], _ => none
  | (s, sec) :: rest, name => if s = name then some sec else getSection rest name

/-- `dict[key] = value` on a section: replace the value of an existing
key, otherwise append the key at the end (insertion order). -/
def setKey : IniSection → String → String → IniSection
  | [], k, v => [(k, v)]
  | (k0, v0) :: rest, k, v =>
    if k0 = k then (k, v) :: rest else (k0, v0) :: setKey rest k v

/-- Store one option into the named section, creating the section at the
end of the store when it does not exist yet — the effect of one
`key=value` line under `[sect]` in `ConfigParser._read`.  The option
name is expected already lowercased by the caller. -/
def setOption : ConfigState → String → String → String → ConfigState
  | [], sect, k, v => [(sect, [(k, v)])]
  | (s0, sec0) :: rest, sect, k, v =>
    if s0 = sect then (sect, setKey sec0 k v) :: rest
    else (s0, sec0) :: setOption rest sect k v

/-- The two lookup failures `RawConfigParser.get` can raise:
`NoSectionError` and `NoOptionError`. -/
inductive ConfigError where
  | noSection (section_ : String)
  | noOption (section_ name : String)
deriving DecidableEq, Repr

/-- `RawConfigParser.get(section, option)`: case-sensitive section
lookup, `optionxform` (lowercasing) applied to the option name. -/
def cfgGet (c : ConfigState) (category name : String) : Except ConfigError String :=
  match getSection c category with
  | none => .error (.noSection category)
  | some sec =>
    match lookupOpt sec (pyLower name) with
    | some v => .ok v
    | none => .error (.noOption category name)

/-- The store seeded from the embedded `content` blob of
`AgentConfig.py` (`config.readfp(StringIO(content))`): keys as written
there (already lowercase), sections in file order. -/
def defaultConfig : ConfigState :=
  [ ("server",
     [ ("hostname", "localhost"),
       ("port", "8440"),
       ("secured_port", "8441") ]),
    ("agent",
     [ ("app_pkg_dir", "app/pkg"),
       ("app_pid_dir", "app/run"),
       ("app_log_dir", "app/log"),
       ("app_task_dir", "app/data"),
       ("log_dir", "log"),
       ("log_level", "INFO") ]),
    ("python", []),
    ("command",
     [ ("max_retries", "2"),
       ("sleep_between_retries", "1") ]),
    ("security", []),
    ("heartbeat",
     [ ("state_interval", "6"),
       ("log_lines_count", "300") ]) ]

/-- A parsed override file: its `(section, option, value)` triples in
file order (the stream `ConfigParser._read` feeds into the store). -/
abbrev IniStream := List (String × String × String)

/-- Feed a parsed file into the store, one triple at a time, lowercasing
each option name (`optionxform`); later values override earlier ones. -/
def readStream (c : ConfigState) : IniStream → ConfigState
  | [] => c
  | (sect, k, v) :: rest => readStream (setOption c sect (pyLower k) v) rest

/-- A file system for `ConfigParser.read`: maps a path to the parsed
triple stream of the file there, or `none` when the file does not exist
or is unreadable. -/
abbrev IniFs := String → Option IniStream

/-- `RawConfigParser.read(filename)` for a single filename: open the
file; on `IOError` (missing/unreadable file) silently skip it, leaving
the store untouched; otherwise feed its contents into the store. -/
def configRead (c : ConfigState) (fs : IniFs) (filename : String) : ConfigState :=
  match fs filename with
  | none => c
  | some stream => readStream c stream

/-- The `AgentConfig` class: stores a root path and a label
(`__init__`); the parsed configuration itself is the process-wide
`config` global, passed here explicitly as a `ConfigState`. -/
structure AgentConfig where
  agentRoot : String
  label : String

/-- `AgentConfig.getRootPath`. -/
def AgentConfig.getRootPath (a : AgentConfig) : String :=
  a.agentRoot

/-- `AgentConfig.getLabel`. -/
def AgentConfig.getLabel (a : AgentConfig) : String :=
  a.label

/-- `os.path.isabs` on POSIX: the path begins with a slash. -/
def isAbs (p : String) : Bool :=
  match p.data with
  | [] => false
  | c :: _ => c = '/'

/-- `path.endswith('/')`: the path's last character is a slash. -/
def endsWithSlash (p : String) : Bool :=
  match p.data.getLast? with
  | none => false
  | some c => c = '/'

/-- `os.path.join(a, b)` on POSIX for two components: an absolute `b`
wins; otherwise `b` is appended to `a`, inserting a slash unless `a` is
empty or already ends with one. -/
def osPathJoin (a b : String) : String :=
  if isAbs b then b
  else if a = "" || endsWithSlash a then a ++ b
  else a ++ "/" ++ b

/-- `AgentConfig.get(category, name)`: delegate to the process-wide
store's `get`. -/
def AgentConfig.get (_a : AgentConfig) (c : ConfigState) (category name : String) :
    Except ConfigError String :=
  cfgGet c category name

/-- `AgentConfig.getResolvedPath(name)`: look `name` up in the "agent"
section; keep an absolute value unchanged, otherwise join it onto the
stored root path.  A lookup failure propagates. -/
def AgentConfig.getResolvedPath (a : AgentConfig) (c : ConfigState) (name : String) :
    Except ConfigError String :=
  match cfgGet c "agent" name with
  | .error e => .error e
  | .ok relativePath =>
    if isAbs relativePath then .ok relativePath
    else .ok (osPathJoin a.agentRoot relativePath)

/-- `AgentConfig.setConfig(configFile)`: `config.read(configFile)` on
the process-wide store. -/
def AgentConfig.setConfig (_a : AgentConfig) (c : ConfigState) (fs : IniFs)
    (configFile : String) : ConfigState :=
  configRead c fs configFile

/-- The last value a parsed file stream assigns to option `key`
(already lowercased) of section `sect`, if any — "last value wins". -/
def streamLast (stream : IniStream) (sect key : String) : Option String :=
  match stream with
  | [] => none
  | (s, k, v) :: rest =>
    match streamLast rest sect key with
    | some w => some w
    | none => if s = sect ∧ pyLower k = key then some v else none

/-!
Embedding of `accumulo_configuration.py`.  The script only issues calls
into the external `resource_management` framework (`Directory`,
`XmlConfig`, `TemplateConfig`, `File`), so `setup_conf_dir` is modelled
as the list of those calls in program order.  Each constructor records
exactly the arguments the source passes; an argument the source omits
(such as `mode`, `template_tag`, or the policy file's `conf_dir`) is
recorded as `none`.
-/

/-- A Python dict of string keys, as an ordered association list. -/
abbrev PyDict (α : Type) := List (String × α)

/-- `d[key]` on a Python dict: the value, or a `KeyError` naming the
missing key. -/
def pyGet {α : Type} : PyDict α → String → Except String α
  | [], key => .error key
  | (k, v) :: rest, key => if k = key then .ok v else pyGet rest key

/-- `key in d` on a Python dict. -/
def pyHasKey {α : Type} : PyDict α → String → Bool
  | [], _ => false
  | (k, _) :: rest, key => k = key || pyHasKey rest key

/-- The content argument of a `File` call: a `StaticFile(name)` handle
or a literal string (`params.log4j_props`). -/
inductive FileContent where
  | static (name : String)
  | literal (s : String)
deriving DecidableEq, Repr

/-- One call into the `resource_management` framework, with the
arguments the script passes. -/
inductive FsAction where
  | directory (path owner group : String) (recursive : Bool)
  | xmlConfig (filename : String) (confDir : Option String)
      (configurations : PyDict String) (owner group : String) (mode : Option Nat)
  | templateConfig (path owner group : String) (templateTag : Option String)
  | file (path : String) (mode : Nat) (owner group : String) (content : FileContent)
deriving DecidableEq, Repr

/-- The fields of the external `params` module that `setup_conf_dir`
reads; `config` contributes only its `['configurations']` dict. -/
structure Params where
  conf_dir : String
  pid_dir : String
  log_dir : String
  accumulo_user : String
  user_group : String
  configurations : PyDict (PyDict String)
  log4j_props : Option String

/-- Helper `accumulo_TemplateConfig(name, tag=None)`: a `TemplateConfig`
on `{conf_dir}/{name}`, owner/group from params. -/
def accumulo_TemplateConfig (p : Params) (name : String) (tag : Option String) : FsAction :=
  .templateConfig (p.conf_dir ++ "/" ++ name) p.accumulo_user p.user_group tag

/-- Helper `accumulo_StaticFile(name)`: a `File` on `{conf_dir}/{name}`,
mode 0644, owner/group from params, content `StaticFile(name)`. -/
def accumulo_StaticFile (p : Params) (name : String) : FsAction :=
  .file (p.conf_dir ++ "/" ++ name) 0o644 p.user_group p.accumulo_user (.static name)

/-- Lines 34–68 of the script: the role-dependent part.  For a
non-client role, the pid and log `Directory` calls and the full
`accumulo-site.xml` (mode 0600); for the client role, the reduced
three-key `accumulo-site.xml` with no mode argument.  A missing dict
key raises `KeyError`. -/
def roleActions (name : Option String) (p : Params) : Except String (List FsAction) :=
  if name ≠ some "client" then
    match pyGet p.configurations "accumulo-site" with
    | .error e => .error e
    | .ok site =>
      .ok [ .directory p.pid_dir p.accumulo_user p.user_group true,
            .directory p.log_dir p.accumulo_user p.user_group true,
            .xmlConfig "accumulo-site.xml" (some p.conf_dir) site
              p.accumulo_user p.user_group (some 0o600) ]
  else
    match pyGet p.configurations "accumulo-site" with
    | .error e => .error e
    | .ok site0 =>
      match pyGet site0 "instance.zookeeper.host" with
      | .error e => .error e
      | .ok zk =>
        match pyGet p.configurations "accumulo-site" with
        | .error e => .error e
        | .ok site1 =>
          match pyGet site1 "instance.dfs.dir" with
          | .error e => .error e
          | .ok dfs =>
            match pyGet p.configurations "accumulo-site" with
            | .error e => .error e
            | .ok site2 =>
              match pyGet site2 "general.classpaths" with
              | .error e => .error e
              | .ok cp =>
                .ok [ .xmlConfig "accumulo-site.xml" (some p.conf_dir)
                        [ ("instance.zookeeper.host", zk),
                          ("instance.dfs.dir", dfs),
                          ("general.classpaths", cp) ]
                        p.accumulo_user p.user_group none ]

/-- Lines 81–89: the `log4j.properties` file — a literal `File` when
`params.log4j_props` is set, the static default otherwise. -/
def log4jAction (p : Params) : FsAction :=
  match p.log4j_props with
  | some props =>
    .file (p.conf_dir ++ "/log4j.properties") 0o644 p.user_group p.accumulo_user
      (.literal props)
  | none => accumulo_StaticFile p "log4j.properties"

/-- Lines 97–103: the policy file, only when the bundle has an
"accumulo-policy" section; note that this `XmlConfig` call passes no
`conf_dir` argument. -/
def policyActions (p : Params) : List FsAction :=
  if pyHasKey p.configurations "accumulo-policy" then
    match pyGet p.configurations "accumulo-policy" with
    | .ok policy =>
      [ .xmlConfig "accumulo-policy.xml" none policy
          p.accumulo_user p.user_group none ]
    | .error _ => []
  else []

/-- `setup_conf_dir(name=None)`: the full trace of framework calls, in
program order — conf `Directory`, the role-dependent part, the env
template, the five static host files, `log4j.properties`, the four
static logging/metrics files, and optionally the policy file. -/
def setup_conf_dir (name : Option String) (p : Params) : Except String (List FsAction) :=
  match roleActions name p with
  | .error e => .error e
  | .ok role =>
    .ok <|
    [ .directory p.conf_dir p.accumulo_user p.user_group true ]
    ++ role
    ++ [ accumulo_TemplateConfig p "accumulo-env.sh" none,
         accumulo_StaticFile p "masters",
         accumulo_StaticFile p "slaves",
         accumulo_StaticFile p "monitor",
         accumulo_StaticFile p "gc",
         accumulo_StaticFile p "tracers",
         log4jAction p,
         accumulo_StaticFile p "auditLog.xml",
         accumulo_StaticFile p "generic_logger.xml",
         accumulo_StaticFile p "monitor_logger.xml",
         accumulo_StaticFile p "accumulo-metrics.xml" ]
    ++ policyActions p

/-!
A create-or-replace interpretation of a trace, for the idempotence
claim: each framework call deterministically (re)creates one path from
the call's own arguments, so a file-system state maps each path to the
last call that wrote it.
-/

/-- The path a framework call creates or replaces.  An `XmlConfig`
without an explicit `conf_dir` falls back to the framework's default
directory, modelled as the bare filename. -/
def FsAction.targetPath : FsAction → String
  | .directory path _ _ _ => path
  | .xmlConfig filename confDir _ _ _ _ =>
    match confDir with
    | some d => d ++ "/" ++ filename
    | none => filename
  | .templateConfig path _ _ _ => path
  | .file path _ _ _ _ => path

/-- A file-system state: each path holds the call that last wrote it
(its kind, ownership, mode and content), or nothing. -/
abbrev FsState := String → Option FsAction

/-- Create-or-replace one path. -/
def applyAction (s : FsState) (a : FsAction) : FsState :=
  fun p => if p = a.targetPath then some a else s p

/-- Run a whole trace, left to right. -/
def applyTrace (s : FsState) : List FsAction → FsState
  | [] => s
  | a :: rest => applyTrace (applyAction s a) rest

/-- The last call of a trace writing path `p`, if any. -/
def lastWrite : List FsAction → String → Option FsAction
  | [], _ => none
  | a :: rest, p =>
    match lastWrite rest p with
    | some b => some b
    | none => if p = a.targetPath then some a else none

/-!
Concrete inputs used by the witnesses.
-/

/-- A sample "accumulo-site" bundle section with the three client keys
and an extra fourth key. -/
def exSite : PyDict String :=
  [ ("instance.zookeeper.host", "zk1:2181"),
    ("instance.dfs.dir", "/accumulo"),
    ("general.classpaths", "/usr/lib/accumulo/lib"),
    ("tserver.memory.maps.max", "1G") ]

/-- A sample "accumulo-policy" bundle section. -/
def exPolicy : PyDict String :=
  [ ("policy.grant", "system") ]

/-- A sample `params` module with both bundle sections present and no
log4j override. -/
def exParams : Params :=
  { conf_dir := "/etc/accumulo/conf",
    pid_dir := "/var/run/accumulo",
    log_dir := "/var/log/accumulo",
    accumulo_user := "accumulo",
    user_group := "hadoop",
    configurations := [("accumulo-site", exSite), ("accumulo-policy", exPolicy)],
    log4j_props := none }

/-- The same `params` module without the "accumulo-policy" section. -/
def exParamsNoPolicy : Params :=
  { exParams with configurations := [("accumulo-site", exSite)] }

/-- A parsed override file containing `[agent] log_level=DEBUG`, the
example of the spec. -/
def exStream : IniStream :=
  [ ("agent", "log_level", "DEBUG") ]

/-- A one-file file system holding the parsed override file at
"/etc/agent.ini". -/
def exFs : IniFs :=
  fun p => if p = "/etc/agent.ini" then some exStream else none

/-!
Trace classifiers used to state the claims about `setup_conf_dir`.
-/

/-- Is this call a `Directory` call? -/
def isDirAction : FsAction → Bool
  | .directory _ _ _ _ => true
  | _ => false

/-- The `Directory` calls of a trace, in order. -/
def dirActions (acts : List FsAction) : List FsAction :=
  acts.filter isDirAction

/-- Is this call an `XmlConfig` on "accumulo-site.xml"? -/
def isSiteXml : FsAction → Bool
  | .xmlConfig filename _ _ _ _ _ => filename = "accumulo-site.xml"
  | _ => false

/-- The site-configuration `XmlConfig` calls of a trace, in order. -/
def siteXmlConfigs (acts : List FsAction) : List FsAction :=
  acts.filter isSiteXml

/-- Is this call an `XmlConfig` on "accumulo-policy.xml"? -/
def isPolicyXml : FsAction → Bool
  | .xmlConfig filename _ _ _ _ _ => filename = "accumulo-policy.xml"
  | _ => false

/-- The policy `XmlConfig` calls of a trace, in order. -/
def policyXmlConfigs (acts : List FsAction) : List FsAction :=
  acts.filter isPolicyXml

/-- The `conf_dir` argument of an `XmlConfig` call (`none` when the call
passes no `conf_dir`, or is not an `XmlConfig`). -/
def xmlConfDir : FsAction → Option String
  | .xmlConfig _ confDir _ _ _ _ => confDir
  | _ => none

/-- A store whose "agent" section holds an absolute path, for the
absolute-value case of `getResolvedPath`. -/
def exAbsConfig : ConfigState :=
  [ ("agent", [ ("app_abs_dir", "/abs/path") ]) ]

/-- An empty file system (no file exists), for the missing-override
witness. -/
def exNoFs : IniFs :=
  fun _ => none

/-- An empty file-system state, for the idempotence witness. -/
def exEmptyFsState : FsState :=
  fun _ => none

/-- The trace `setup_conf_dir(None)` produces on `exParams` (checked
against the model by `rfl` in the witnesses). -/
def exServerActs : List FsAction :=
  [ .directory "/etc/accumulo/conf" "accumulo" "hadoop" true,
    .directory "/var/run/accumulo" "accumulo" "hadoop" true,
    .directory "/var/log/accumulo" "accumulo" "hadoop" true,
    .xmlConfig "accumulo-site.xml" (some "/etc/accumulo/conf") exSite
      "accumulo" "hadoop" (some 0o600),
    .templateConfig "/etc/accumulo/conf/accumulo-env.sh" "accumulo" "hadoop" none,
    .file "/etc/accumulo/conf/masters" 0o644 "hadoop" "accumulo" (.static "masters"),
    .file "/etc/accumulo/conf/slaves" 0o644 "hadoop" "accumulo" (.static "slaves"),
    .file "/etc/accumulo/conf/monitor" 0o644 "hadoop" "accumulo" (.static "monitor"),
    .file "/etc/accumulo/conf/gc" 0o644 "hadoop" "accumulo" (.static "gc"),
    .file "/etc/accumulo/conf/tracers" 0o644 "hadoop" "accumulo" (.static "tracers"),
    .file "/etc/accumulo/conf/log4j.properties" 0o644 "hadoop" "accumulo"
      (.static "log4j.properties"),
    .file "/etc/accumulo/conf/auditLog.xml" 0o644 "hadoop" "accumulo"
      (.static "auditLog.xml"),
    .file "/etc/accumulo/conf/generic_logger.xml" 0o644 "hadoop" "accumulo"
      (.static "generic_logger.xml"),
    .file "/etc/accumulo/conf/monitor_logger.xml" 0o644 "hadoop" "accumulo"
      (.static "monitor_logger.xml"),
    .file "/etc/accumulo/conf/accumulo-metrics.xml" 0o644 "hadoop" "accumulo"
      (.static "accumulo-metrics.xml"),
    .xmlConfig "accumulo-policy.xml" none exPolicy "accumulo" "hadoop" none ]

/-- The trace `setup_conf_dir("client")` produces on `exParams` (checked
against the model by `rfl` in the witnesses). -/
def exClientActs : List FsAction :=
  [ .directory "/etc/accumulo/conf" "accumulo" "hadoop" true,
    .xmlConfig "accumulo-site.xml" (some "/etc/accumulo/conf")
      [ ("instance.zookeeper.host", "zk1:2181"),
        ("instance.dfs.dir", "/accumulo"),
        ("general.classpaths", "/usr/lib/accumulo/lib") ]
      "accumulo" "hadoop" none,
    .templateConfig "/etc/accumulo/conf/accumulo-env.sh" "accumulo" "hadoop" none,
    .file "/etc/accumulo/conf/masters" 0o644 "hadoop" "accumulo" (.static "masters"),
    .file "/etc/accumulo/conf/slaves" 0o644 "hadoop" "accumulo" (.static "slaves"),
    .file "/etc/accumulo/conf/monitor" 0o644 "hadoop" "accumulo" (.static "monitor"),
    .file "/etc/accumulo/conf/gc" 0o644 "hadoop" "accumulo" (.static "gc"),
    .file "/etc/accumulo/conf/tracers" 0o644 "hadoop" "accumulo" (.static "tracers"),
    .file "/etc/accumulo/conf/log4j.properties" 0o644 "hadoop" "accumulo"
      (.static "log4j.properties"),
    .file "/etc/accumulo/conf/auditLog.xml" 0o644 "hadoop" "accumulo"
      (.static "auditLog.xml"),
    .file "/etc/accumulo/conf/generic_logger.xml" 0o644 "hadoop" "accumulo"
      (.static "generic_logger.xml"),
    .file "/etc/accumulo/conf/monitor_logger.xml" 0o644 "hadoop" "accumulo"
      (.static "monitor_logger.xml"),
    .file "/etc/accumulo/conf/accumulo-metrics.xml" 0o644 "hadoop" "accumulo"
      (.static "accumulo-metrics.xml"),
    .xmlConfig "accumulo-policy.xml" none exPolicy "accumulo" "hadoop" none ]

/-!
Helper lemmas about the configuration-store primitives.
-/

theorem lookupOpt_setKey_self (sec : IniSection) (k v : String) :
    lookupOpt (setKey sec k v) k = some v := by
  induction sec with
  | nil => simp [setKey, lookupOpt]
  | cons p rest ih =>
    obtain ⟨k0, v0⟩ := p
    by_cases h : k0 = k
    · subst h
      simp [setKey, lookupOpt]
    · simp [setKey, lookupOpt, h, ih]

theorem lookupOpt_setKey_other (sec : IniSection) (k v k' : String) (h : k ≠ k') :
    lookupOpt (setKey sec k v) k' = lookupOpt sec k' := by
  induction sec with
  | nil => simp [setKey, lookupOpt, h]
  | cons p rest ih =>
    obtain ⟨k0, v0⟩ := p
    by_cases h0 : k0 = k
    · subst h0
      simp [setKey, lookupOpt, h]
    · simp [setKey, lookupOpt, h0, ih]

theorem getSection_setOption_self (c : ConfigState) (s k v : String) :
    getSection (setOption c s k v) s =
      some (setKey ((getSection c s).getD []) k v) := by
  induction c with
  | nil => simp [setOption, getSection, setKey]
  | cons p rest ih =>
    obtain ⟨s0, sec0⟩ := p
    by_cases h : s0 = s
    · subst h
      simp [setOption, getSection]
    · simp [setOption, getSection, h, ih]

theorem getSection_setOption_other (c : ConfigState) (s k v s' : String) (h : s ≠ s') :
    getSection (setOption c s k v) s' = getSection c s' := by
  induction c with
  | nil => simp [setOption, getSection, h]
  | cons p rest ih =>
    obtain ⟨s0, sec0⟩ := p
    by_cases h0 : s0 = s
    · subst h0
      simp [setOption, getSection, h]
    · by_cases h1 : s0 = s'
      · subst h1
        simp [setOption, getSection, h0]
      · simp [setOption, getSection, h0, h1, ih]

theorem charToLower_idem (c : Char) : c.toLower.toLower = c.toLower := by
  show Char.toLower (Char.toLower c) = Char.toLower c
  unfold Char.toLower
  by_cases h : c.toNat ≥ 65 ∧ c.toNat ≤ 90
  · rw [if_pos h]
    obtain ⟨h1, h2⟩ := h
    generalize hm : c.toNat = m at h1 h2
    interval_cases m <;> decide
  · rw [if_neg h, if_neg h]

theorem pyLower_idem (s : String) : pyLower (pyLower s) = pyLower s := by
  show (⟨(pyLower s).data.map Char.toLower⟩ : String) = pyLower s
  unfold pyLower
  congr 1
  induction s.data with
  | nil => rfl
  | cons c cs ih => simp [charToLower_idem, ih]

theorem cfgGet_eq_ok (c : ConfigState) (s name v : String) :
    cfgGet c s name = .ok v ↔
    ∃ sec, getSection c s = some sec ∧ lookupOpt sec (pyLower name) = some v := by
  unfold cfgGet
  cases h : getSection c s with
  | none => simp
  | some sec =>
    cases hl : lookupOpt sec (pyLower name) with
    | none => simp [hl]
    | some w => simp [hl]

theorem cfgGet_setOption_self (c : ConfigState) (s k v name : String)
    (hk : pyLower name = k) :
    cfgGet (setOption c s k v) s name = .ok v := by
  rw [cfgGet_eq_ok]
  refine ⟨setKey ((getSection c s).getD []) k v, getSection_setOption_self c s k v, ?_⟩
  rw [hk]
  exact lookupOpt_setKey_self _ _ _

theorem cfgGet_setOption_frame (c : ConfigState) (s0 k0 v0 s name v : String)
    (hok : cfgGet c s name = .ok v)
    (hne : ¬(s0 = s ∧ k0 = pyLower name)) :
    cfgGet (setOption c s0 k0 v0) s name = .ok v := by
  rw [cfgGet_eq_ok] at hok ⊢
  obtain ⟨sec, hsec, hl⟩ := hok
  by_cases hs : s0 = s
  · subst hs
    have hk : k0 ≠ pyLower name := fun h => hne ⟨rfl, h⟩
    refine ⟨setKey sec k0 v0, ?_, ?_⟩
    · rw [getSection_setOption_self, hsec]
      rfl
    · rw [lookupOpt_setKey_other _ _ _ _ hk]
      exact hl
  · refine ⟨sec, ?_, hl⟩
    rw [getSection_setOption_other _ _ _ _ _ hs]
    exact hsec

theorem cfgGet_readStream_frame (stream : IniStream) : ∀ (c : ConfigState) (s k v : String),
    streamLast stream s (pyLower k) = none →
    cfgGet c s k = .ok v →
    cfgGet (readStream c stream) s k = .ok v := by
  induction stream with
  | nil =>
    intro c s k v _ hok
    exact hok
  | cons e rest ih =>
    obtain ⟨s0, k0, v0⟩ := e
    intro c s k v h hok
    simp only [streamLast] at h
    cases hrest : streamLast rest s (pyLower k) with
    | some w => rw [hrest] at h; cases h
    | none =>
      rw [hrest] at h
      have hc : ¬(s0 = s ∧ pyLower k0 = pyLower k) := by
        intro hc
        rw [if_pos hc] at h
        cases h
      simp only [readStream]
      exact ih _ _ _ _ hrest (cfgGet_setOption_frame _ _ _ _ _ _ _ hok hc)

theorem cfgGet_readStream_last (stream : IniStream) : ∀ (c : ConfigState) (s k v : String),
    streamLast stream s (pyLower k) = some v →
    cfgGet (readStream c stream) s k = .ok v := by
  induction stream with
  | nil =>
    intro c s k v h
    cases h
  | cons e rest ih =>
    obtain ⟨s0, k0, v0⟩ := e
    intro c s k v h
    simp only [streamLast] at h
    cases hrest : streamLast rest s (pyLower k) with
    | some w =>
      rw [hrest] at h
      injection h with hw
      subst hw
      simp only [readStream]
      exact ih _ _ _ _ hrest
    | none =>
      rw [hrest] at h
      by_cases hc : s0 = s ∧ pyLower k0 = pyLower k
      · rw [if_pos hc] at h
        injection h with hv
        subst hv
        obtain ⟨hs, hk⟩ := hc
        subst hs
        simp only [readStream]
        exact cfgGet_readStream_frame rest _ _ _ _ hrest
          (cfgGet_setOption_self _ _ _ _ _ hk.symm)
      · rw [if_neg hc] at h
        cases h

/-- C4: whenever the section is absent from the configuration store, or
the key (after `optionxform` lowercasing) is absent from that section,
`get(category, name)` fails with the corresponding lookup error
(`NoSectionError` / `NoOptionError`) instead of returning a default. -/
theorem agent_get_missing_fails (a : AgentConfig) (c : ConfigState)
    (category name : String) :
    (getSection c category = none →
      AgentConfig.get a c category name = .error (.noSection category)) ∧
    (∀ sec, getSection c category = some sec →
      lookupOpt sec (pyLower name) = none →
      AgentConfig.get a c category name = .error (.noOption category name)) := by
  constructor
  · intro h
    unfold AgentConfig.get cfgGet
    rw [h]
  · intro sec hsec hl
    unfold AgentConfig.get cfgGet
    rw [hsec]
    simp [hl]

/-- Witness for C4: `get("nosuch","key")` on the default configuration
fails with a no-such-section error, and `get("python","port")` (empty
section) fails with a no-such-option error. -/
theorem agent_get_missing_fails_witness :
    AgentConfig.get ⟨".", "label0"⟩ defaultConfig "nosuch" "key" =
      .error (.noSection "nosuch") ∧
    AgentConfig.get ⟨".", "label0"⟩ defaultConfig "python" "port" =
      .error (.noOption "python" "port") :=
  ⟨(agent_get_missing_fails ⟨".", "label0"⟩ defaultConfig "nosuch" "key").1 rfl,
   (agent_get_missing_fails ⟨".", "label0"⟩ defaultConfig "python" "port").2 [] rfl rfl⟩

/-- C3: after `setConfig(configFile)` with a parseable override file,
every section/key pair present in the file reads back as the file's
last value for that pair, and every pair absent from the file that read
a value before still reads that same value. -/
theorem setConfig_merge (a : AgentConfig) (c : ConfigState) (fs : IniFs)
    (file : String) (stream : IniStream) (s k v : String)
    (hfile : fs file = some stream) :
    (streamLast stream s (pyLower k) = some v →
      AgentConfig.get a (AgentConfig.setConfig a c fs file) s k = .ok v) ∧
    (streamLast stream s (pyLower k) = none →
      AgentConfig.get a c s k = .ok v →
      AgentConfig.get a (AgentConfig.setConfig a c fs file) s k = .ok v) := by
  unfold AgentConfig.setConfig configRead AgentConfig.get
  rw [hfile]
  exact ⟨fun h => cfgGet_readStream_last stream c s k v h,
         fun h hok => cfgGet_readStream_frame stream c s k v h hok⟩

/-- Witness for C3: loading a file containing `[agent] log_level=DEBUG`
makes `get("agent","log_level")` return "DEBUG" while
`get("server","port")` still returns "8440". -/
theorem setConfig_merge_witness :
    AgentConfig.get ⟨".", "label0"⟩
      (AgentConfig.setConfig ⟨".", "label0"⟩ defaultConfig exFs "/etc/agent.ini")
      "agent" "log_level" = .ok "DEBUG" ∧
    AgentConfig.get ⟨".", "label0"⟩
      (AgentConfig.setConfig ⟨".", "label0"⟩ defaultConfig exFs "/etc/agent.ini")
      "server" "port" = .ok "8440" :=
  ⟨(setConfig_merge ⟨".", "label0"⟩ defaultConfig exFs "/etc/agent.ini" exStream
      "agent" "log_level" "DEBUG" rfl).1 rfl,
   (setConfig_merge ⟨".", "label0"⟩ defaultConfig exFs "/etc/agent.ini" exStream
      "server" "port" "8440" rfl).2 rfl rfl⟩

/-- C5: for a key configured in the "agent" section,
`getResolvedPath(name)` returns the configured value unchanged when it
is absolute and otherwise joins it onto the stored root path; a lookup
failure for `name` propagates as the lookup error. -/
theorem getResolvedPath_spec (root label : String) (c : ConfigState)
    (name v : String) (e : ConfigError) :
    (cfgGet c "agent" name = .ok v →
      AgentConfig.getResolvedPath ⟨root, label⟩ c name =
        .ok (if isAbs v then v else osPathJoin root v)) ∧
    (cfgGet c "agent" name = .error e →
      AgentConfig.getResolvedPath ⟨root, label⟩ c name = .error e) := by
  constructor
  · intro h
    unfold AgentConfig.getResolvedPath
    rw [h]
    by_cases hab : isAbs v
    · simp [hab]
    · simp [hab]
  · intro h
    unfold AgentConfig.getResolvedPath
    rw [h]

/-- Witness for C5: with root "/opt/agent", `app_pkg_dir` (default
"app/pkg") resolves to "/opt/agent/app/pkg"; an absolute configured
value "/abs/path" is returned unchanged; an unconfigured key fails with
the lookup error. -/
theorem getResolvedPath_spec_witness :
    AgentConfig.getResolvedPath ⟨"/opt/agent", "label0"⟩ defaultConfig "app_pkg_dir" =
      .ok "/opt/agent/app/pkg" ∧
    AgentConfig.getResolvedPath ⟨"/opt/agent", "label0"⟩ exAbsConfig "app_abs_dir" =
      .ok "/abs/path" ∧
    AgentConfig.getResolvedPath ⟨"/opt/agent", "label0"⟩ defaultConfig "no_such_key" =
      .error (.noOption "agent" "no_such_key") :=
  ⟨(getResolvedPath_spec "/opt/agent" "label0" defaultConfig "app_pkg_dir"
      "app/pkg" (.noSection "x")).1 rfl,
   (getResolvedPath_spec "/opt/agent" "label0" exAbsConfig "app_abs_dir"
      "/abs/path" (.noSection "x")).1 rfl,
   (getResolvedPath_spec "/opt/agent" "label0" defaultConfig "no_such_key"
      "" (.noOption "agent" "no_such_key")).2 rfl⟩

/-- C9: `setConfig` with a path naming no readable file raises no error
and leaves the store entirely unchanged, so every later `get` returns
exactly what it returned before. -/
theorem setConfig_missing_file_noop (a : AgentConfig) (c : ConfigState) (fs : IniFs)
    (file : String) (h : fs file = none) (category name : String) :
    AgentConfig.setConfig a c fs file = c ∧
    AgentConfig.get a (AgentConfig.setConfig a c fs file) category name =
      AgentConfig.get a c category name := by
  have hc : AgentConfig.setConfig a c fs file = c := by
    unfold AgentConfig.setConfig configRead
    rw [h]
  exact ⟨hc, by rw [hc]⟩

/-- Witness for C9: loading the nonexistent file "/missing.ini" leaves
the default configuration untouched. -/
theorem setConfig_missing_file_noop_witness :
    AgentConfig.setConfig ⟨".", "label0"⟩ defaultConfig exNoFs "/missing.ini" =
      defaultConfig ∧
    AgentConfig.get ⟨".", "label0"⟩
      (AgentConfig.setConfig ⟨".", "label0"⟩ defaultConfig exNoFs "/missing.ini")
      "server" "port" =
      AgentConfig.get ⟨".", "label0"⟩ defaultConfig "server" "port" :=
  setConfig_missing_file_noop ⟨".", "label0"⟩ defaultConfig exNoFs "/missing.ini"
    rfl "server" "port"

theorem cfgGet_toOption (c : ConfigState) (s name : String) :
    (cfgGet c s name).toOption =
      (getSection c s).bind (fun sec => lookupOpt sec (pyLower name)) := by
  cases hg : getSection c s with
  | none => simp [cfgGet, hg, Except.toOption]
  | some sec =>
    cases hl : lookupOpt sec (pyLower name) with
    | none => simp [cfgGet, hg, hl, Except.toOption]
    | some w => simp [cfgGet, hg, hl, Except.toOption]

/-- C10: key lookup lowercases the key name, so `get(s, name)` yields
the same result as `get(s, lowercase name)` — the same value on
success, and failure on exactly the same inputs (the error object
merely echoes the queried spelling); section lookup is case-sensitive
(a section name differing in case from "server" fails with a
no-such-section error on the default store, where
`get("server","PORT")` returns "8440"). -/
theorem get_case_sensitivity (a : AgentConfig) (c : ConfigState)
    (s name t : String) :
    (AgentConfig.get a c s name).toOption =
      (AgentConfig.get a c s (pyLower name)).toOption ∧
    (pyLower t = "server" → t ≠ "server" →
      AgentConfig.get a defaultConfig t "port" = .error (.noSection t)) ∧
    AgentConfig.get a defaultConfig "server" "PORT" = .ok "8440" := by
  refine ⟨?_, ?_, rfl⟩
  · show (cfgGet c s name).toOption = (cfgGet c s (pyLower name)).toOption
    rw [cfgGet_toOption, cfgGet_toOption, pyLower_idem]
  · intro htl hts
    have h1 : t ≠ "agent" := by
      intro he; rw [he] at htl; exact absurd htl (by decide)
    have h2 : t ≠ "python" := by
      intro he; rw [he] at htl; exact absurd htl (by decide)
    have h3 : t ≠ "command" := by
      intro he; rw [he] at htl; exact absurd htl (by decide)
    have h4 : t ≠ "security" := by
      intro he; rw [he] at htl; exact absurd htl (by decide)
    have h5 : t ≠ "heartbeat" := by
      intro he; rw [he] at htl; exact absurd htl (by decide)
    have hsec : getSection defaultConfig t = none := by
      simp [defaultConfig, getSection, Ne.symm hts, Ne.symm h1, Ne.symm h2,
        Ne.symm h3, Ne.symm h4, Ne.symm h5]
    unfold AgentConfig.get cfgGet
    rw [hsec]

/-- Witness for C10: `get("server","PORT")` agrees with
`get("server","port")` (both "8440") and `get("Server","port")` fails
with a no-such-section error. -/
theorem get_case_sensitivity_witness :
    (AgentConfig.get ⟨".", "label0"⟩ defaultConfig "server" "PORT").toOption =
      (AgentConfig.get ⟨".", "label0"⟩ defaultConfig "server" (pyLower "PORT")).toOption ∧
    AgentConfig.get ⟨".", "label0"⟩ defaultConfig "Server" "port" =
      .error (.noSection "Server") :=
  ⟨(get_case_sensitivity ⟨".", "label0"⟩ defaultConfig "server" "PORT" "Server").1,
   (get_case_sensitivity ⟨".", "label0"⟩ defaultConfig "server" "PORT" "Server").2.1
     (by decide) (by decide)⟩

/-!
Helper lemmas about the materializer embedding.
-/

theorem pyGet_ok_of_hasKey {α : Type} (d : PyDict α) (key : String)
    (h : pyHasKey d key = true) : ∃ v, pyGet d key = .ok v := by
  induction d with
  | nil => cases h
  | cons p rest ih =>
    obtain ⟨k0, v0⟩ := p
    by_cases h0 : k0 = key
    · exact ⟨v0, by simp [pyGet, h0]⟩
    · have : pyHasKey rest key = true := by
        simpa [pyHasKey, h0] using h
      obtain ⟨v, hv⟩ := ih this
      exact ⟨v, by simp [pyGet, h0, hv]⟩

theorem pyHasKey_of_ok {α : Type} (d : PyDict α) (key : String) (v : α)
    (h : pyGet d key = .ok v) : pyHasKey d key = true := by
  induction d with
  | nil => cases h
  | cons p rest ih =>
    obtain ⟨k0, v0⟩ := p
    by_cases h0 : k0 = key
    · simp [pyHasKey, h0]
    · simp only [pyGet, if_neg h0] at h
      simp [pyHasKey, h0, ih h]

theorem isSiteXml_log4jAction (p : Params) : isSiteXml (log4jAction p) = false := by
  cases h : p.log4j_props <;> simp [log4jAction, h, accumulo_StaticFile, isSiteXml]

theorem isDirAction_log4jAction (p : Params) : isDirAction (log4jAction p) = false := by
  cases h : p.log4j_props <;> simp [log4jAction, h, accumulo_StaticFile, isDirAction]

theorem isPolicyXml_log4jAction (p : Params) : isPolicyXml (log4jAction p) = false := by
  cases h : p.log4j_props <;> simp [log4jAction, h, accumulo_StaticFile, isPolicyXml]

theorem isSiteXml_of_mem_policyActions (p : Params) (a : FsAction)
    (ha : a ∈ policyActions p) : isSiteXml a = false := by
  unfold policyActions at ha
  by_cases h : pyHasKey p.configurations "accumulo-policy"
  · cases hg : pyGet p.configurations "accumulo-policy" with
    | error e => simp [h, hg] at ha
    | ok policy =>
      simp only [h, hg, if_true] at ha
      simp at ha
      subst ha
      simp [isSiteXml]
  · simp [h] at ha

theorem isDirAction_of_mem_policyActions (p : Params) (a : FsAction)
    (ha : a ∈ policyActions p) : isDirAction a = false := by
  unfold policyActions at ha
  by_cases h : pyHasKey p.configurations "accumulo-policy"
  · cases hg : pyGet p.configurations "accumulo-policy" with
    | error e => simp [h, hg] at ha
    | ok policy =>
      simp only [h, hg, if_true] at ha
      simp at ha
      subst ha
      simp [isDirAction]
  · simp [h] at ha

theorem isPolicyXml_of_mem_policyActions (p : Params) (a : FsAction)
    (ha : a ∈ policyActions p) : isPolicyXml a = true := by
  unfold policyActions at ha
  by_cases h : pyHasKey p.configurations "accumulo-policy"
  · cases hg : pyGet p.configurations "accumulo-policy" with
    | error e => simp [h, hg] at ha
    | ok policy =>
      simp only [h, hg, if_true] at ha
      simp at ha
      subst ha
      simp [isPolicyXml]
  · simp [h] at ha

theorem filter_isSiteXml_policyActions (p : Params) :
    (policyActions p).filter isSiteXml = [] := by
  unfold policyActions
  by_cases h : pyHasKey p.configurations "accumulo-policy"
  · cases hg : pyGet p.configurations "accumulo-policy" with
    | error e => simp [h, hg]
    | ok policy => simp [h, hg, isSiteXml]
  · simp [h]

theorem filter_isDirAction_policyActions (p : Params) :
    (policyActions p).filter isDirAction = [] := by
  unfold policyActions
  by_cases h : pyHasKey p.configurations "accumulo-policy"
  · cases hg : pyGet p.configurations "accumulo-policy" with
    | error e => simp [h, hg]
    | ok policy => simp [h, hg, isDirAction]
  · simp [h]

theorem filter_isPolicyXml_policyActions (p : Params) :
    (policyActions p).filter isPolicyXml = policyActions p := by
  unfold policyActions
  by_cases h : pyHasKey p.configurations "accumulo-policy"
  · cases hg : pyGet p.configurations "accumulo-policy" with
    | error e => simp [h, hg]
    | ok policy => simp [h, hg, isPolicyXml]
  · simp [h]

theorem policyActions_ne_nil_iff (p : Params) :
    policyActions p ≠ [] ↔ pyHasKey p.configurations "accumulo-policy" = true := by
  unfold policyActions
  by_cases h : pyHasKey p.configurations "accumulo-policy"
  · obtain ⟨v, hv⟩ := pyGet_ok_of_hasKey _ _ h
    simp [h, hv]
  · simp [h]

theorem policyActions_of_ok (p : Params) (policy : PyDict String)
    (h : pyGet p.configurations "accumulo-policy" = .ok policy) :
    policyActions p =
      [ .xmlConfig "accumulo-policy.xml" none policy
          p.accumulo_user p.user_group none ] := by
  unfold policyActions
  simp [pyHasKey_of_ok _ _ _ h, h]

theorem roleActions_cases (name : Option String) (p : Params) (roleActs : List FsAction)
    (h : roleActions name p = .ok roleActs) :
    (name ≠ some "client" ∧ ∃ site,
       pyGet p.configurations "accumulo-site" = .ok site ∧
       roleActs =
         [ .directory p.pid_dir p.accumulo_user p.user_group true,
           .directory p.log_dir p.accumulo_user p.user_group true,
           .xmlConfig "accumulo-site.xml" (some p.conf_dir) site
             p.accumulo_user p.user_group (some 0o600) ]) ∨
    (name = some "client" ∧ ∃ site zk dfs cp,
       pyGet p.configurations "accumulo-site" = .ok site ∧
       pyGet site "instance.zookeeper.host" = .ok zk ∧
       pyGet site "instance.dfs.dir" = .ok dfs ∧
       pyGet site "general.classpaths" = .ok cp ∧
       roleActs =
         [ .xmlConfig "accumulo-site.xml" (some p.conf_dir)
             [ ("instance.zookeeper.host", zk),
               ("instance.dfs.dir", dfs),
               ("general.classpaths", cp) ]
             p.accumulo_user p.user_group none ]) := by
  unfold roleActions at h
  by_cases hn : name = some "client"
  · right
    refine ⟨hn, ?_⟩
    rw [if_neg (by simp [hn])] at h
    cases hs : pyGet p.configurations "accumulo-site" with
    | error e => simp [hs] at h
    | ok site =>
      simp only [hs] at h
      cases hz : pyGet site "instance.zookeeper.host" with
      | error e => simp [hz] at h
      | ok zk =>
        simp only [hz] at h
        cases hd : pyGet site "instance.dfs.dir" with
        | error e => simp [hd] at h
        | ok dfs =>
          simp only [hd] at h
          cases hc : pyGet site "general.classpaths" with
          | error e => simp [hc] at h
          | ok cp =>
            simp only [hc, Except.ok.injEq] at h
            exact ⟨site, zk, dfs, cp, rfl, hz, hd, hc, h.symm⟩
  · left
    refine ⟨hn, ?_⟩
    rw [if_pos hn] at h
    cases hs : pyGet p.configurations "accumulo-site" with
    | error e => simp [hs] at h
    | ok site =>
      simp only [hs, Except.ok.injEq] at h
      exact ⟨site, rfl, h.symm⟩

theorem setup_conf_dir_inv (name : Option String) (p : Params) (acts : List FsAction)
    (h : setup_conf_dir name p = .ok acts) :
    ∃ roleActs, roleActions name p = .ok roleActs ∧
      acts =
        [ .directory p.conf_dir p.accumulo_user p.user_group true ]
        ++ roleActs
        ++ [ accumulo_TemplateConfig p "accumulo-env.sh" none,
             accumulo_StaticFile p "masters",
             accumulo_StaticFile p "slaves",
             accumulo_StaticFile p "monitor",
             accumulo_StaticFile p "gc",
             accumulo_StaticFile p "tracers",
             log4jAction p,
             accumulo_StaticFile p "auditLog.xml",
             accumulo_StaticFile p "generic_logger.xml",
             accumulo_StaticFile p "monitor_logger.xml",
             accumulo_StaticFile p "accumulo-metrics.xml" ]
        ++ policyActions p := by
  unfold setup_conf_dir at h
  cases hr : roleActions name p with
  | error e => simp [hr] at h
  | ok roleActs =>
    simp only [hr, Except.ok.injEq] at h
    exact ⟨roleActs, rfl, h.symm⟩

/-- C1: for the client role, the rendered site configuration carries
exactly the three keys `instance.zookeeper.host`, `instance.dfs.dir`
and `general.classpaths`, each copied from the "accumulo-site" section
of the bundle, and no others — whatever else the bundle contains. -/
theorem client_site_three_keys (p : Params) (site : PyDict String) (zk dfs cp : String)
    (hsite : pyGet p.configurations "accumulo-site" = .ok site)
    (hz : pyGet site "instance.zookeeper.host" = .ok zk)
    (hd : pyGet site "instance.dfs.dir" = .ok dfs)
    (hc : pyGet site "general.classpaths" = .ok cp) :
    ∃ acts, setup_conf_dir (some "client") p = .ok acts ∧
      siteXmlConfigs acts =
        [ .xmlConfig "accumulo-site.xml" (some p.conf_dir)
            [ ("instance.zookeeper.host", zk),
              ("instance.dfs.dir", dfs),
              ("general.classpaths", cp) ]
            p.accumulo_user p.user_group none ] := by
  have hrole : roleActions (some "client") p = .ok
      [ .xmlConfig "accumulo-site.xml" (some p.conf_dir)
          [ ("instance.zookeeper.host", zk),
            ("instance.dfs.dir", dfs),
            ("general.classpaths", cp) ]
          p.accumulo_user p.user_group none ] := by
    unfold roleActions
    rw [if_neg (by simp)]
    simp only [hsite, hz, hd, hc]
  unfold setup_conf_dir
  rw [hrole]
  refine ⟨_, rfl, ?_⟩
  simp only [siteXmlConfigs, List.filter_append]
  simp [isSiteXml, accumulo_StaticFile, accumulo_TemplateConfig]
  refine ⟨?_, ?_⟩
  · simpa [isSiteXml] using isSiteXml_log4jAction p
  · intro a ha
    simpa [isSiteXml] using isSiteXml_of_mem_policyActions p a ha

/-- Witness for C1: on a bundle whose "accumulo-site" section has a
fourth key, the client trace still renders the site file with exactly
the three client keys. -/
theorem client_site_three_keys_witness :
    ∃ acts, setup_conf_dir (some "client") exParams = .ok acts ∧
      siteXmlConfigs acts =
        [ .xmlConfig "accumulo-site.xml" (some "/etc/accumulo/conf")
            [ ("instance.zookeeper.host", "zk1:2181"),
              ("instance.dfs.dir", "/accumulo"),
              ("general.classpaths", "/usr/lib/accumulo/lib") ]
            "accumulo" "hadoop" none ] :=
  client_site_three_keys exParams exSite "zk1:2181" "/accumulo"
    "/usr/lib/accumulo/lib" rfl rfl rfl rfl

/-- C2: the trace's `Directory` calls are the conf directory alone for
the client role, and the conf, pid and log directories (owner = service
user, group = service group, recursive) for every other role — in
particular for the absent role `None`. -/
theorem pid_log_dirs_iff_nonclient (name : Option String) (p : Params)
    (acts : List FsAction) (h : setup_conf_dir name p = .ok acts) :
    dirActions acts =
      if name = some "client" then
        [ .directory p.conf_dir p.accumulo_user p.user_group true ]
      else
        [ .directory p.conf_dir p.accumulo_user p.user_group true,
          .directory p.pid_dir p.accumulo_user p.user_group true,
          .directory p.log_dir p.accumulo_user p.user_group true ] := by
  obtain ⟨roleActs, hr, hacts⟩ := setup_conf_dir_inv name p acts h
  subst hacts
  rcases roleActions_cases name p roleActs hr with
    ⟨hn, site, hsite, hrole⟩ | ⟨hn, site, zk, dfs, cp, hsite, hz, hd, hc, hrole⟩
  · subst hrole
    rw [if_neg hn]
    simp only [dirActions, List.filter_append]
    simp [isDirAction, accumulo_StaticFile, accumulo_TemplateConfig]
    refine ⟨?_, ?_⟩
    · simpa [isDirAction] using isDirAction_log4jAction p
    · intro a ha
      simpa [isDirAction] using isDirAction_of_mem_policyActions p a ha
  · subst hrole
    rw [if_pos hn]
    simp only [dirActions, List.filter_append]
    simp [isDirAction, accumulo_StaticFile, accumulo_TemplateConfig]
    refine ⟨?_, ?_⟩
    · simpa [isDirAction] using isDirAction_log4jAction p
    · intro a ha
      simpa [isDirAction] using isDirAction_of_mem_policyActions p a ha

/-- Witness for C2: the server trace creates the conf, pid and log
directories; the client trace creates only the conf directory. -/
theorem pid_log_dirs_iff_nonclient_witness :
    dirActions exServerActs =
      [ .directory "/etc/accumulo/conf" "accumulo" "hadoop" true,
        .directory "/var/run/accumulo" "accumulo" "hadoop" true,
        .directory "/var/log/accumulo" "accumulo" "hadoop" true ] ∧
    dirActions exClientActs =
      [ .directory "/etc/accumulo/conf" "accumulo" "hadoop" true ] :=
  ⟨pid_log_dirs_iff_nonclient none exParams exServerActs rfl,
   pid_log_dirs_iff_nonclient (some "client") exParams exClientActs rfl⟩

/-- C6: for a non-client role the full site file is rendered with mode
0600 and the service owner/group; for the client role the reduced site
file carries the service owner/group but no mode argument (framework
default). -/
theorem site_file_modes (name : Option String) (p : Params) (acts : List FsAction)
    (site : PyDict String) (h : setup_conf_dir name p = .ok acts)
    (hsite : pyGet p.configurations "accumulo-site" = .ok site) :
    (name ≠ some "client" →
      siteXmlConfigs acts =
        [ .xmlConfig "accumulo-site.xml" (some p.conf_dir) site
            p.accumulo_user p.user_group (some 0o600) ]) ∧
    (name = some "client" →
      ∃ zk dfs cp,
        pyGet site "instance.zookeeper.host" = .ok zk ∧
        pyGet site "instance.dfs.dir" = .ok dfs ∧
        pyGet site "general.classpaths" = .ok cp ∧
        siteXmlConfigs acts =
          [ .xmlConfig "accumulo-site.xml" (some p.conf_dir)
              [ ("instance.zookeeper.host", zk),
                ("instance.dfs.dir", dfs),
                ("general.classpaths", cp) ]
              p.accumulo_user p.user_group none ]) := by
  obtain ⟨roleActs, hr, hacts⟩ := setup_conf_dir_inv name p acts h
  subst hacts
  rcases roleActions_cases name p roleActs hr with
    ⟨hn, site', hsite', hrole⟩ | ⟨hn, site', zk, dfs, cp, hsite', hz, hd, hc, hrole⟩
  · rw [hsite] at hsite'
    injection hsite' with hss
    subst hss
    subst hrole
    constructor
    · intro _
      simp only [siteXmlConfigs, List.filter_append]
      simp [isSiteXml, accumulo_StaticFile, accumulo_TemplateConfig]
      refine ⟨?_, ?_⟩
      · simpa [isSiteXml] using isSiteXml_log4jAction p
      · intro a ha
        simpa [isSiteXml] using isSiteXml_of_mem_policyActions p a ha
    · intro hcl
      exact absurd hcl hn
  · rw [hsite] at hsite'
    injection hsite' with hss
    subst hss
    subst hrole
    constructor
    · intro hnc
      exact absurd hn hnc
    · intro _
      refine ⟨zk, dfs, cp, hz, hd, hc, ?_⟩
      simp only [siteXmlConfigs, List.filter_append]
      simp [isSiteXml, accumulo_StaticFile, accumulo_TemplateConfig]
      refine ⟨?_, ?_⟩
      · simpa [isSiteXml] using isSiteXml_log4jAction p
      · intro a ha
        simpa [isSiteXml] using isSiteXml_of_mem_policyActions p a ha

/-- Witness for C6: the server trace renders the full site file with
mode 0600 and the client trace renders the three-key site file with no
mode argument. -/
theorem site_file_modes_witness :
    siteXmlConfigs exServerActs =
      [ .xmlConfig "accumulo-site.xml" (some "/etc/accumulo/conf") exSite
          "accumulo" "hadoop" (some 0o600) ] ∧
    ∃ zk dfs cp,
      pyGet exSite "instance.zookeeper.host" = .ok zk ∧
      pyGet exSite "instance.dfs.dir" = .ok dfs ∧
      pyGet exSite "general.classpaths" = .ok cp ∧
      siteXmlConfigs exClientActs =
        [ .xmlConfig "accumulo-site.xml" (some "/etc/accumulo/conf")
            [ ("instance.zookeeper.host", zk),
              ("instance.dfs.dir", dfs),
              ("general.classpaths", cp) ]
            "accumulo" "hadoop" none ] :=
  ⟨(site_file_modes none exParams exServerActs exSite rfl rfl).1 (by decide),
   (site_file_modes (some "client") exParams exClientActs exSite rfl rfl).2 rfl⟩

theorem filter_isPolicyXml_tail (p : Params) :
    List.filter isPolicyXml
      [ accumulo_TemplateConfig p "accumulo-env.sh" none,
        accumulo_StaticFile p "masters",
        accumulo_StaticFile p "slaves",
        accumulo_StaticFile p "monitor",
        accumulo_StaticFile p "gc",
        accumulo_StaticFile p "tracers",
        log4jAction p,
        accumulo_StaticFile p "auditLog.xml",
        accumulo_StaticFile p "generic_logger.xml",
        accumulo_StaticFile p "monitor_logger.xml",
        accumulo_StaticFile p "accumulo-metrics.xml" ] = [] := by
  cases h : p.log4j_props <;>
    simp [log4jAction, h, isPolicyXml, accumulo_StaticFile, accumulo_TemplateConfig]

/-- Counterexample for C7: on a concrete bundle containing an
"accumulo-policy" section, the policy `XmlConfig` call passes no
`conf_dir` argument at all (`none`), so the policy file is not placed
relative to the configured conf directory ("/etc/accumulo/conf"), the
way every other artifact is. -/
theorem policy_confdir_counterexample :
    ∃ acts, setup_conf_dir none exParams = .ok acts ∧
      policyXmlConfigs acts =
        [ .xmlConfig "accumulo-policy.xml" none exPolicy "accumulo" "hadoop" none ] ∧
      ¬ ∀ a ∈ policyXmlConfigs acts, xmlConfDir a = some exParams.conf_dir :=
  ⟨exServerActs, rfl, rfl, by decide⟩

/-- C7 (amended): for every role and bundle, a policy `XmlConfig` call
appears in the trace iff the bundle has an "accumulo-policy" section;
when it does, the single policy call renders "accumulo-policy.xml" from
that section with owner/group set to the service identity, no mode
override, and no `conf_dir` argument (the destination is left to the
framework default rather than the configured conf directory). -/
theorem policy_xml_characterization (name : Option String) (p : Params)
    (acts : List FsAction) (h : setup_conf_dir name p = .ok acts) :
    (policyXmlConfigs acts ≠ [] ↔
      pyHasKey p.configurations "accumulo-policy" = true) ∧
    ∀ policy, pyGet p.configurations "accumulo-policy" = .ok policy →
      policyXmlConfigs acts =
        [ .xmlConfig "accumulo-policy.xml" none policy
            p.accumulo_user p.user_group none ] := by
  obtain ⟨roleActs, hr, hacts⟩ := setup_conf_dir_inv name p acts h
  subst hacts
  have hfilter : policyXmlConfigs
      ([ .directory p.conf_dir p.accumulo_user p.user_group true ]
        ++ roleActs
        ++ [ accumulo_TemplateConfig p "accumulo-env.sh" none,
             accumulo_StaticFile p "masters",
             accumulo_StaticFile p "slaves",
             accumulo_StaticFile p "monitor",
             accumulo_StaticFile p "gc",
             accumulo_StaticFile p "tracers",
             log4jAction p,
             accumulo_StaticFile p "auditLog.xml",
             accumulo_StaticFile p "generic_logger.xml",
             accumulo_StaticFile p "monitor_logger.xml",
             accumulo_StaticFile p "accumulo-metrics.xml" ]
        ++ policyActions p) = policyActions p := by
    rcases roleActions_cases name p roleActs hr with
      ⟨hn, site, hsite, hrole⟩ | ⟨hn, site, zk, dfs, cp, hsite, hz, hd, hc, hrole⟩ <;>
      subst hrole <;>
      · simp only [policyXmlConfigs, List.filter_append]
        rw [filter_isPolicyXml_tail, filter_isPolicyXml_policyActions]
        simp [isPolicyXml]
  rw [hfilter]
  exact ⟨policyActions_ne_nil_iff p,
         fun policy hp => policyActions_of_ok p policy hp⟩

/-- Witness for C7 (amended): on the example server trace, the policy
call is present (the bundle has the section) and is exactly the
conf-dir-less `XmlConfig` on "accumulo-policy.xml". -/
theorem policy_xml_characterization_witness :
    (policyXmlConfigs exServerActs ≠ [] ↔
      pyHasKey exParams.configurations "accumulo-policy" = true) ∧
    policyXmlConfigs exServerActs =
      [ .xmlConfig "accumulo-policy.xml" none exPolicy "accumulo" "hadoop" none ] :=
  ⟨(policy_xml_characterization none exParams exServerActs rfl).1,
   (policy_xml_characterization none exParams exServerActs rfl).2 exPolicy rfl⟩

theorem applyTrace_lastWrite (t : List FsAction) : ∀ (s : FsState) (q : String),
    applyTrace s t q =
      match lastWrite t q with
      | some a => some a
      | none => s q := by
  induction t with
  | nil =>
    intro s q
    rfl
  | cons a rest ih =>
    intro s q
    simp only [applyTrace]
    rw [ih]
    cases hl : lastWrite rest q with
    | some b => simp [lastWrite, hl]
    | none =>
      simp only [lastWrite, hl, applyAction]
      by_cases hq : q = a.targetPath
      · simp [hq]
      · simp [hq]

/-- C8: a `setup_conf_dir` trace is idempotent under the
create-or-replace interpretation: replaying the same trace on top of
its own result leaves the file-system state unchanged, byte for byte
and attribute for attribute, with no stale artifacts. -/
theorem setup_conf_dir_idempotent (name : Option String) (p : Params)
    (acts : List FsAction) (s : FsState)
    (_h : setup_conf_dir name p = .ok acts) :
    applyTrace (applyTrace s acts) acts = applyTrace s acts := by
  funext q
  rw [applyTrace_lastWrite acts (applyTrace s acts) q,
    applyTrace_lastWrite acts s q]
  cases hl : lastWrite acts q with
  | some a => rfl
  | none => rfl

/-- Witness for C8: replaying the example server trace over its own
result is a no-op on the empty file system. -/
theorem setup_conf_dir_idempotent_witness :
    applyTrace (applyTrace exEmptyFsState exServerActs) exServerActs =
      applyTrace exEmptyFsState exServerActs :=
  setup_conf_dir_idempotent none exParams exServerActs exEmptyFsState rfl
